import Mathlib

/-!
# exG4: procedural meshes (box, cone, cylinder) and mesh concatenation

A shallow embedding of `vmlib/mat44.hpp`, `exercise4/box.cpp`, `exercise4/cone.cpp`,
`exercise4/cylinder.cpp` and `exercise4/simple_mesh.cpp`.

Conventions of the embedding:

* `float` is an arbitrary field `α` (exact arithmetic, rounding is not modelled);
  `std::size_t` is `Nat`; `float(n)` is the cast `Nat → α`.
* `std::vector<T>` is `List T`; `emplace_back`/`push_back` append at the end.
* `std::cos`, `std::sin` and `std::numbers::pi_v<float>` are the fields of a
  parameter `CMath α`.
* a `for (i = 0; i < n; ++i)` loop is a left fold of its body over `List.range n`
  (over `List.finRange 4` for the index loops of the matrix product).
* statements that need the values of cosine and sine take `α = ℝ` and the
  `CMath ℝ` made of `Real.cos`, `Real.sin` and `Real.pi`.
-/

namespace ExG4

/-! ## vmlib -/

/-- Modelled from the spec: `vmlib/vec3.hpp` is not among the sources; `Vec3f` is "three
floating-point components (x, y, z)". -/
structure Vec3f (α : Type) where
  x : α
  y : α
  z : α
deriving DecidableEq, Repr

/-- Modelled from the spec: `vmlib/vec4.hpp` is not among the sources; `Vec4f` is "four
floating-point components (x, y, z, w)". -/
structure Vec4f (α : Type) where
  x : α
  y : α
  z : α
  w : α
deriving DecidableEq, Repr

/-- Modelled from the spec: `vmlib/vec4.hpp` (with `Vec4f::operator/=`) is not among the
sources; the homogeneous normalization "divides all of `t`'s components by `t.w`". -/
def Vec4f.divAssign {α : Type} [Field α] (v : Vec4f α) (s : α) : Vec4f α :=
  ⟨v.x / s, v.y / s, v.z / s, v.w / s⟩

/-- The matrix type `Mat44f`: sixteen scalars `v[16]`, row-major. -/
structure Mat44f (α : Type) where
  v : Fin 16 → α

/-- The accessor `Mat44f::operator()(aI, aJ)`, which reads `v[aI * 4 + aJ]`. -/
def Mat44f.get {α : Type} (M : Mat44f α) (aI aJ : Fin 4) : α :=
  M.v ⟨aI.val * 4 + aJ.val, by omega⟩

/-- The constant `kIdentity44f`. -/
def kIdentity44f {α : Type} [Field α] : Mat44f α :=
  ⟨![1, 0, 0, 0,
     0, 1, 0, 0,
     0, 0, 1, 0,
     0, 0, 0, 1]⟩

/-- Matrix-vector product `operator*(Mat44f const&, Vec4f const&)`. -/
def Mat44f.mulVec {α : Type} [Field α] (aLeft : Mat44f α) (aRight : Vec4f α) : Vec4f α :=
  ⟨aLeft.get 0 0 * aRight.x + aLeft.get 0 1 * aRight.y + aLeft.get 0 2 * aRight.z
      + aLeft.get 0 3 * aRight.w,
   aLeft.get 1 0 * aRight.x + aLeft.get 1 1 * aRight.y + aLeft.get 1 2 * aRight.z
      + aLeft.get 1 3 * aRight.w,
   aLeft.get 2 0 * aRight.x + aLeft.get 2 1 * aRight.y + aLeft.get 2 2 * aRight.z
      + aLeft.get 2 3 * aRight.w,
   aLeft.get 3 0 * aRight.x + aLeft.get 3 1 * aRight.y + aLeft.get 3 2 * aRight.z
      + aLeft.get 3 3 * aRight.w⟩

/-- Translation matrix `make_translation`. -/
def make_translation {α : Type} [Field α] (aTranslation : Vec3f α) : Mat44f α :=
  ⟨![1, 0, 0, aTranslation.x,
     0, 1, 0, aTranslation.y,
     0, 0, 1, aTranslation.z,
     0, 0, 0, 1]⟩

/-- The `<cmath>`/`<numbers>` functions the generators call: `std::cos`, `std::sin` and
`std::numbers::pi_v<float>`. -/
structure CMath (α : Type) where
  cos : α → α
  sin : α → α
  pi : α

/-! ## exercise4 -/

/-- Modelled from the spec: `exercise4/simple_mesh.hpp` is not among the sources; the mesh
is "an ordered sequence of Vec3 positions and a same-length ordered sequence of Vec3
colors", built as `SimpleMeshData(pos, col)` and read as `.positions` and `.colors`. -/
structure SimpleMeshData (α : Type) where
  positions : List (Vec3f α)
  colors : List (Vec3f α)
deriving DecidableEq, Repr

/-- Body of the "Apply the pre-transform matrix" loop shared by the three generators:
lift to `Vec4f` with `w = 1`, multiply, divide by `w`, drop `w`. -/
def preTransformPoint {α : Type} [Field α] (aPreTransform : Mat44f α) (p : Vec3f α) :
    Vec3f α :=
  let p4 : Vec4f α := ⟨p.x, p.y, p.z, 1⟩
  let transformed := aPreTransform.mulVec p4
  let transformed := transformed.divAssign transformed.w
  ⟨transformed.x, transformed.y, transformed.z⟩

/-- Loop-carried state of the side loops of `make_cone` and `make_cylinder`. -/
structure SideState (α : Type) where
  prevY : α
  prevZ : α
  pos : List (Vec3f α)

/-- Body of the side loop of `make_cone` (cone.cpp lines 15-28). -/
def coneSideStep {α : Type} [Field α] (m : CMath α) (aSubdivs : Nat) (apex : Vec3f α)
    (st : SideState α) (i : Nat) : SideState α :=
  let angle := ((i + 1 : Nat) : α) / (aSubdivs : α) * 2 * m.pi
  let y := m.cos angle
  let z := m.sin angle
  { prevY := y
    prevZ := z
    pos := st.pos ++ [⟨0, st.prevY, st.prevZ⟩, ⟨0, y, z⟩, apex] }

/-- Body of the base-cap loop of `make_cone` (cone.cpp lines 35-46). -/
def coneCapStep {α : Type} [Field α] (m : CMath α) (aSubdivs : Nat)
    (bottomCenter : Vec3f α) (pos : List (Vec3f α)) (i : Nat) : List (Vec3f α) :=
  let angle1 := (i : α) / (aSubdivs : α) * 2 * m.pi
  let angle2 := ((i + 1 : Nat) : α) / (aSubdivs : α) * 2 * m.pi
  let p1 : Vec3f α := ⟨0, m.cos angle1, m.sin angle1⟩
  let p2 : Vec3f α := ⟨0, m.cos angle2, m.sin angle2⟩
  pos ++ [bottomCenter, p1, p2]

/-- The local-space vertex list of `make_cone`, before the pre-transform
(cone.cpp lines 6-47). -/
def coneLocal {α : Type} [Field α] (m : CMath α) (aCapped : Bool) (aSubdivs : Nat) :
    List (Vec3f α) :=
  let apex : Vec3f α := ⟨1, 0, 0⟩
  let st0 : SideState α := ⟨m.cos 0, m.sin 0, []⟩
  let st := (List.range aSubdivs).foldl (coneSideStep m aSubdivs apex) st0
  if aCapped then
    let bottomCenter : Vec3f α := ⟨0, 0, 0⟩
    (List.range aSubdivs).foldl (coneCapStep m aSubdivs bottomCenter) st.pos
  else
    st.pos

/-- The generator `make_cone` (cone.cpp). -/
def make_cone {α : Type} [Field α] (m : CMath α) (aCapped : Bool) (aSubdivs : Nat)
    (aColor : Vec3f α) (aPreTransform : Mat44f α) : SimpleMeshData α :=
  let pos := (coneLocal m aCapped aSubdivs).map (preTransformPoint aPreTransform)
  let col := List.replicate pos.length aColor
  ⟨pos, col⟩

/-- Body of the side loop of `make_cylinder` (cylinder.cpp lines 12-29). -/
def cylinderSideStep {α : Type} [Field α] (m : CMath α) (aSubdivs : Nat)
    (st : SideState α) (i : Nat) : SideState α :=
  let angle := ((i + 1 : Nat) : α) / (aSubdivs : α) * 2 * m.pi
  let y := m.cos angle
  let z := m.sin angle
  { prevY := y
    prevZ := z
    pos := st.pos ++ [⟨0, st.prevY, st.prevZ⟩, ⟨0, y, z⟩, ⟨1, st.prevY, st.prevZ⟩,
                      ⟨0, y, z⟩, ⟨1, y, z⟩, ⟨1, st.prevY, st.prevZ⟩] }

/-- Body of the bottom-cap loop of `make_cylinder` (cylinder.cpp lines 38-49). -/
def cylinderBottomStep {α : Type} [Field α] (m : CMath α) (aSubdivs : Nat)
    (bottomCenter : Vec3f α) (pos : List (Vec3f α)) (i : Nat) : List (Vec3f α) :=
  let angle1 := (i : α) / (aSubdivs : α) * 2 * m.pi
  let angle2 := ((i + 1 : Nat) : α) / (aSubdivs : α) * 2 * m.pi
  let p1 : Vec3f α := ⟨0, m.cos angle1, m.sin angle1⟩
  let p2 : Vec3f α := ⟨0, m.cos angle2, m.sin angle2⟩
  pos ++ [bottomCenter, p1, p2]

/-- Body of the top-cap loop of `make_cylinder` (cylinder.cpp lines 52-63). -/
def cylinderTopStep {α : Type} [Field α] (m : CMath α) (aSubdivs : Nat)
    (topCenter : Vec3f α) (pos : List (Vec3f α)) (i : Nat) : List (Vec3f α) :=
  let angle1 := (i : α) / (aSubdivs : α) * 2 * m.pi
  let angle2 := ((i + 1 : Nat) : α) / (aSubdivs : α) * 2 * m.pi
  let p1 : Vec3f α := ⟨1, m.cos angle1, m.sin angle1⟩
  let p2 : Vec3f α := ⟨1, m.cos angle2, m.sin angle2⟩
  pos ++ [topCenter, p2, p1]

/-- The local-space vertex list of `make_cylinder`, before the pre-transform
(cylinder.cpp lines 6-64). -/
def cylinderLocal {α : Type} [Field α] (m : CMath α) (aCapped : Bool) (aSubdivs : Nat) :
    List (Vec3f α) :=
  let st0 : SideState α := ⟨m.cos 0, m.sin 0, []⟩
  let st := (List.range aSubdivs).foldl (cylinderSideStep m aSubdivs) st0
  if aCapped then
    let bottomCenter : Vec3f α := ⟨0, 0, 0⟩
    let topCenter : Vec3f α := ⟨1, 0, 0⟩
    let pos := (List.range aSubdivs).foldl (cylinderBottomStep m aSubdivs bottomCenter) st.pos
    (List.range aSubdivs).foldl (cylinderTopStep m aSubdivs topCenter) pos
  else
    st.pos

/-- The generator `make_cylinder` (cylinder.cpp). -/
def make_cylinder {α : Type} [Field α] (m : CMath α) (aCapped : Bool) (aSubdivs : Nat)
    (aColor : Vec3f α) (aPreTransform : Mat44f α) : SimpleMeshData α :=
  let pos := (cylinderLocal m aCapped aSubdivs).map (preTransformPoint aPreTransform)
  let col := List.replicate pos.length aColor
  ⟨pos, col⟩

/-- The eight corners `vertices[8]` of `make_box`, in local space (box.cpp lines 10-19). -/
def boxVertices {α : Type} [Field α] : List (Vec3f α) :=
  [⟨-0.5, -0.5, 0.5⟩,
   ⟨0.5, -0.5, 0.5⟩,
   ⟨0.5, 0.5, 0.5⟩,
   ⟨-0.5, 0.5, 0.5⟩,
   ⟨-0.5, -0.5, -0.5⟩,
   ⟨0.5, -0.5, -0.5⟩,
   ⟨0.5, 0.5, -0.5⟩,
   ⟨-0.5, 0.5, -0.5⟩]

/-- The index pattern `indices` of `make_box` (box.cpp lines 22-35). -/
def boxIndices : List Nat :=
  [0, 1, 2, 0, 2, 3,
   4, 5, 6, 4, 6, 7,
   0, 4, 7, 0, 7, 3,
   1, 5, 6, 1, 6, 2,
   3, 2, 6, 3, 6, 7,
   0, 1, 5, 0, 5, 4]

/-- Array read `vertices[idx]`; every index of `boxIndices` is below 8, so the fallback
value is never produced. -/
def vertexAt {α : Type} [Field α] (vertices : List (Vec3f α)) (idx : Nat) : Vec3f α :=
  vertices.getD idx ⟨0, 0, 0⟩

/-- The generator `make_box` (box.cpp); `aCapped` and `aSubdivs` are not read. -/
def make_box {α : Type} [Field α] (_aCapped : Bool) (_aSubdivs : Nat)
    (aColor : Vec3f α) (aPreTransform : Mat44f α) : SimpleMeshData α :=
  let vertices := boxVertices.map (preTransformPoint aPreTransform)
  let pos := boxIndices.foldl (fun pos idx => pos ++ [vertexAt vertices idx]) []
  let col := List.replicate pos.length aColor
  ⟨pos, col⟩

/-- The range insertion `std::vector::insert(pos, first, last)`: the elements of `range`
are placed before position `pos` of `v`. -/
def vectorInsert {β : Type} (v : List β) (pos : Nat) (range : List β) : List β :=
  v.take pos ++ range ++ v.drop pos

/-- The function `concatenate` (simple_mesh.cpp lines 4-9): both insertions are at `end()`. -/
def concatenate {α : Type} (aM aN : SimpleMeshData α) : SimpleMeshData α :=
  let aM : SimpleMeshData α :=
    { aM with positions := vectorInsert aM.positions aM.positions.length aN.positions }
  let aM : SimpleMeshData α :=
    { aM with colors := vectorInsert aM.colors aM.colors.length aN.colors }
  aM

/-- The mesh invariant of the data model: as many colors as positions. -/
def SimpleMeshData.wellFormed {α : Type} (aM : SimpleMeshData α) : Prop :=
  aM.positions.length = aM.colors.length

instance {α : Type} (aM : SimpleMeshData α) : Decidable aM.wellFormed :=
  inferInstanceAs (Decidable (aM.positions.length = aM.colors.length))

/-- A sample `CMath ℚ` used to evaluate the generators on concrete inputs: the quarter-turn
table of cosine and sine in units where `pi = 2`. -/
def sampleMath : CMath ℚ where
  cos := fun a => if a = 0 ∨ a = 4 then 1 else if a = 2 then -1 else 0
  sin := fun a => if a = 1 then 1 else if a = 3 then -1 else 0
  pi := 2

/-! ## vmlib, continued: matrix product and matrix constructors -/

/-- The write access `result(aI, aJ) = x` through `Mat44f::operator()`, which stores into
`v[aI * 4 + aJ]`. -/
def Mat44f.set {α : Type} (M : Mat44f α) (aI aJ : Fin 4) (x : α) : Mat44f α :=
  ⟨Function.update M.v ⟨aI.val * 4 + aJ.val, by omega⟩ x⟩

/-- Matrix-matrix product `operator*(Mat44f const&, Mat44f const&)`: `result{}` starts
zeroed; for every `i`, `j` the entry is reset to `0` and the products
`aLeft(i, k) * aRight(k, j)` are added for `k = 0..3`. -/
def Mat44f.mul {α : Type} [Field α] (aLeft aRight : Mat44f α) : Mat44f α :=
  (List.finRange 4).foldl
    (fun result i =>
      (List.finRange 4).foldl
        (fun result j =>
          let result := result.set i j 0
          (List.finRange 4).foldl
            (fun result k =>
              result.set i j (result.get i j + aLeft.get i k * aRight.get k j))
            result)
        result)
    ⟨fun _ => 0⟩

/-- Rotation around the X axis, `make_rotation_x`. -/
def make_rotation_x {α : Type} [Field α] (m : CMath α) (aAngle : α) : Mat44f α :=
  let c := m.cos aAngle
  let s := m.sin aAngle
  ⟨![1, 0, 0, 0,
     0, c, -s, 0,
     0, s, c, 0,
     0, 0, 0, 1]⟩

/-- Rotation around the Y axis, `make_rotation_y`. -/
def make_rotation_y {α : Type} [Field α] (m : CMath α) (aAngle : α) : Mat44f α :=
  let c := m.cos aAngle
  let s := m.sin aAngle
  ⟨![c, 0, s, 0,
     0, 1, 0, 0,
     -s, 0, c, 0,
     0, 0, 0, 1]⟩

/-- Rotation around the Z axis, `make_rotation_z`. -/
def make_rotation_z {α : Type} [Field α] (m : CMath α) (aAngle : α) : Mat44f α :=
  let c := m.cos aAngle
  let s := m.sin aAngle
  ⟨![c, -s, 0, 0,
     s, c, 0, 0,
     0, 0, 1, 0,
     0, 0, 0, 1]⟩

/-- Scaling matrix `make_scaling`. -/
def make_scaling {α : Type} [Field α] (scaleX scaleY scaleZ : α) : Mat44f α :=
  ⟨![scaleX, 0, 0, 0,
     0, scaleY, 0, 0,
     0, 0, scaleZ, 0,
     0, 0, 0, 1]⟩

/-- Perspective projection matrix `make_perspective_projection`; `tan` is `std::tan`. -/
def make_perspective_projection {α : Type} [Field α] (tan : α → α)
    (aFovInRadians aAspect aNear aFar : α) : Mat44f α :=
  let tanHalfFov := tan (aFovInRadians / 2)
  let sx := 1 / (tanHalfFov * aAspect)
  let sy := 1 / tanHalfFov
  let a := -(aFar + aNear) / (aFar - aNear)
  let b := -(2 * aFar * aNear) / (aFar - aNear)
  ⟨![sx, 0, 0, 0,
     0, sy, 0, 0,
     0, 0, a, b,
     0, 0, -1, 0]⟩

/-! ## The generators with the division by `float(aSubdivs)` checked -/

/-- One pass of a loop whose body divides by `float(aSubdivs)` (every side and cap loop of
`make_cone` and `make_cylinder` does, when it computes its angles), with that division
checked: the pass fails when the divisor is zero and otherwise is the pass `step`. -/
def checkedPass (α : Type) [Field α] [DecidableEq α] {σ : Type} (aSubdivs : Nat)
    (step : σ → Nat → σ) (st : σ) (i : Nat) : Option σ :=
  if (aSubdivs : α) = 0 then none else some (step st i)

/-- The vertex list of `make_cone` before the pre-transform, divisions checked. -/
def coneLocalChecked {α : Type} [Field α] [DecidableEq α] (m : CMath α) (aCapped : Bool)
    (aSubdivs : Nat) : Option (List (Vec3f α)) := do
  let apex : Vec3f α := ⟨1, 0, 0⟩
  let st0 : SideState α := ⟨m.cos 0, m.sin 0, []⟩
  let st ← (List.range aSubdivs).foldlM
    (checkedPass α aSubdivs (coneSideStep m aSubdivs apex)) st0
  if aCapped then
    let bottomCenter : Vec3f α := ⟨0, 0, 0⟩
    (List.range aSubdivs).foldlM
      (checkedPass α aSubdivs (coneCapStep m aSubdivs bottomCenter)) st.pos
  else
    pure st.pos

/-- The generator `make_cone`, divisions by `float(aSubdivs)` checked. -/
def make_cone_checked {α : Type} [Field α] [DecidableEq α] (m : CMath α) (aCapped : Bool)
    (aSubdivs : Nat) (aColor : Vec3f α) (aPreTransform : Mat44f α) :
    Option (SimpleMeshData α) := do
  let pos ← coneLocalChecked m aCapped aSubdivs
  let pos := pos.map (preTransformPoint aPreTransform)
  let col := List.replicate pos.length aColor
  pure ⟨pos, col⟩

/-- The vertex list of `make_cylinder` before the pre-transform, divisions checked. -/
def cylinderLocalChecked {α : Type} [Field α] [DecidableEq α] (m : CMath α)
    (aCapped : Bool) (aSubdivs : Nat) : Option (List (Vec3f α)) := do
  let st0 : SideState α := ⟨m.cos 0, m.sin 0, []⟩
  let st ← (List.range aSubdivs).foldlM
    (checkedPass α aSubdivs (cylinderSideStep m aSubdivs)) st0
  if aCapped then
    let bottomCenter : Vec3f α := ⟨0, 0, 0⟩
    let topCenter : Vec3f α := ⟨1, 0, 0⟩
    let pos ← (List.range aSubdivs).foldlM
      (checkedPass α aSubdivs (cylinderBottomStep m aSubdivs bottomCenter)) st.pos
    (List.range aSubdivs).foldlM
      (checkedPass α aSubdivs (cylinderTopStep m aSubdivs topCenter)) pos
  else
    pure st.pos

/-- The generator `make_cylinder`, divisions by `float(aSubdivs)` checked. -/
def make_cylinder_checked {α : Type} [Field α] [DecidableEq α] (m : CMath α)
    (aCapped : Bool) (aSubdivs : Nat) (aColor : Vec3f α) (aPreTransform : Mat44f α) :
    Option (SimpleMeshData α) := do
  let pos ← cylinderLocalChecked m aCapped aSubdivs
  let pos := pos.map (preTransformPoint aPreTransform)
  let col := List.replicate pos.length aColor
  pure ⟨pos, col⟩

/-! ## Triangle orientation -/

/-- Componentwise difference `a - b` of two points. -/
def Vec3f.sub {α : Type} [Field α] (a b : Vec3f α) : Vec3f α :=
  ⟨a.x - b.x, a.y - b.y, a.z - b.z⟩

/-- Componentwise sum `a + b` of two points. -/
def Vec3f.add {α : Type} [Field α] (a b : Vec3f α) : Vec3f α :=
  ⟨a.x + b.x, a.y + b.y, a.z + b.z⟩

/-- Cross product `a x b`. -/
def Vec3f.cross {α : Type} [Field α] (a b : Vec3f α) : Vec3f α :=
  ⟨a.y * b.z - a.z * b.y, a.z * b.x - a.x * b.z, a.x * b.y - a.y * b.x⟩

/-- Dot product `a . b`. -/
def Vec3f.dot {α : Type} [Field α] (a b : Vec3f α) : α :=
  a.x * b.x + a.y * b.y + a.z * b.z

/-- Right-hand normal `(v1 - v0) x (v2 - v0)` of the triangle `(v0, v1, v2)`. -/
def triNormal {α : Type} [Field α] (v0 v1 v2 : Vec3f α) : Vec3f α :=
  (v1.sub v0).cross (v2.sub v0)

/-- The quantity `((v1 - v0) x (v2 - v0)) . v0`: positive when the triangle is wound
counter-clockwise as seen from outside a convex body around the origin, negative when it
is wound clockwise. -/
def outwardness {α : Type} [Field α] (v0 v1 v2 : Vec3f α) : α :=
  (triNormal v0 v1 v2).dot v0

/-- Apply `f` to each consecutive triangle `(v0, v1, v2)` of an unindexed triangle list. -/
def perTriangle {α β : Type} (f : Vec3f α → Vec3f α → Vec3f α → β) :
    List (Vec3f α) → List β
  | v0 :: v1 :: v2 :: rest => f v0 v1 v2 :: perTriangle f rest
  | _ => []

/-! ## Closed forms used in the proofs -/

/-- The angle `k / float(aSubdivs) * 2 * pi` of ring point `k`. -/
def ringAngle {α : Type} [Field α] (m : CMath α) (aSubdivs k : Nat) : α :=
  (k : α) / (aSubdivs : α) * 2 * m.pi

/-- Ring point `k` of the unit circle in the plane `x = x0`. -/
def ringPoint {α : Type} [Field α] (m : CMath α) (aSubdivs : Nat) (x0 : α) (k : Nat) :
    Vec3f α :=
  ⟨x0, m.cos (ringAngle m aSubdivs k), m.sin (ringAngle m aSubdivs k)⟩

/-- The three vertices pass `i` of the cone's side loop appends. -/
def coneSideTri {α : Type} [Field α] (m : CMath α) (aSubdivs i : Nat) : List (Vec3f α) :=
  [ringPoint m aSubdivs 0 i, ringPoint m aSubdivs 0 (i + 1), ⟨1, 0, 0⟩]

/-- The three vertices pass `i` of a cap loop at `x = x0` appends, in bottom-cap order. -/
def capTri {α : Type} [Field α] (m : CMath α) (aSubdivs : Nat) (x0 : α) (i : Nat) :
    List (Vec3f α) :=
  [⟨x0, 0, 0⟩, ringPoint m aSubdivs x0 i, ringPoint m aSubdivs x0 (i + 1)]

/-- The three vertices pass `i` of the cylinder's top-cap loop appends. -/
def topCapTri {α : Type} [Field α] (m : CMath α) (aSubdivs i : Nat) : List (Vec3f α) :=
  [⟨1, 0, 0⟩, ringPoint m aSubdivs 1 (i + 1), ringPoint m aSubdivs 1 i]

/-- The six vertices pass `i` of the cylinder's side loop appends. -/
def cylinderSideQuad {α : Type} [Field α] (m : CMath α) (aSubdivs i : Nat) :
    List (Vec3f α) :=
  [ringPoint m aSubdivs 0 i, ringPoint m aSubdivs 0 (i + 1), ringPoint m aSubdivs 1 i,
   ringPoint m aSubdivs 0 (i + 1), ringPoint m aSubdivs 1 (i + 1), ringPoint m aSubdivs 1 i]

/-! ## Helper lemmas -/

section Helpers

variable {α : Type} [Field α]

theorem foldl_append_chunks {β γ : Type} (f : γ → List β) (l : List γ) (init : List β) :
    l.foldl (fun acc i => acc ++ f i) init = init ++ l.flatMap f := by
  induction l generalizing init with
  | nil => simp
  | cons a l ih => simp [ih]

theorem flatMap_singleton_eq_map {β γ : Type} (g : γ → β) (l : List γ) :
    l.flatMap (fun i => [g i]) = l.map g := by
  induction l with
  | nil => rfl
  | cons a l ih => simp [ih]

theorem length_flatMap_const {β γ : Type} (f : γ → List β) (c : Nat)
    (h : ∀ i, (f i).length = c) (l : List γ) : (l.flatMap f).length = c * l.length := by
  induction l with
  | nil => simp
  | cons a l ih => simp [ih, h, Nat.mul_add, Nat.add_comm]

theorem getElem?_flatMap_range {β : Type} (f : Nat → List β) (c : Nat)
    (h : ∀ i, (f i).length = c) (n i j : Nat) (hi : i < n) (hj : j < c) :
    ((List.range n).flatMap f)[c * i + j]? = (f i)[j]? := by
  induction n with
  | zero => omega
  | succ n ih =>
    rw [List.range_succ, List.flatMap_append, List.flatMap_singleton]
    have hlen : ((List.range n).flatMap f).length = c * n := by
      rw [length_flatMap_const f c h, List.length_range]
    by_cases hin : i < n
    · have hlt : c * i + j < c * n := by
        calc c * i + j < c * i + c := by omega
          _ = c * (i + 1) := by ring
          _ ≤ c * n := Nat.mul_le_mul_left c hin
      rw [List.getElem?_append_left (by rw [hlen]; exact hlt)]
      exact ih hin
    · have hieq : i = n := by omega
      subst hieq
      rw [List.getElem?_append_right (by rw [hlen]; omega), hlen]
      congr 1
      omega

theorem vectorInsert_end {β : Type} (v range : List β) :
    vectorInsert v v.length range = v ++ range := by
  simp [vectorInsert]

theorem ringAngle_zero (m : CMath α) (n : Nat) : ringAngle m n 0 = 0 := by
  simp [ringAngle]

/-! ### The cone's loops in closed form -/

theorem coneSide_fold (m : CMath α) (n k : Nat) :
    (List.range k).foldl (coneSideStep m n ⟨1, 0, 0⟩) ⟨m.cos 0, m.sin 0, []⟩
      = ⟨m.cos (ringAngle m n k), m.sin (ringAngle m n k),
          (List.range k).flatMap (coneSideTri m n)⟩ := by
  induction k with
  | zero => simp [ringAngle_zero]
  | succ k ih =>
    rw [List.range_succ, List.foldl_append, ih]
    simp [coneSideStep, coneSideTri, ringPoint, ringAngle]

theorem coneCap_fold (m : CMath α) (n : Nat) (l : List Nat) (init : List (Vec3f α)) :
    l.foldl (coneCapStep m n ⟨0, 0, 0⟩) init = init ++ l.flatMap (capTri m n 0) := by
  have hf : coneCapStep m n (⟨0, 0, 0⟩ : Vec3f α) = fun acc i => acc ++ capTri m n 0 i := by
    funext acc i
    simp [coneCapStep, capTri, ringPoint, ringAngle]
  rw [hf]
  exact foldl_append_chunks (capTri m n 0) l init

theorem coneLocal_eq (m : CMath α) (aCapped : Bool) (n : Nat) :
    coneLocal m aCapped n
      = (List.range n).flatMap (coneSideTri m n)
          ++ (if aCapped then (List.range n).flatMap (capTri m n 0) else []) := by
  cases aCapped <;> simp [coneLocal, coneSide_fold, coneCap_fold]

theorem coneLocal_length (m : CMath α) (aCapped : Bool) (n : Nat) :
    (coneLocal m aCapped n).length = if aCapped then 6 * n else 3 * n := by
  rw [coneLocal_eq]
  cases aCapped
  · simp [length_flatMap_const (coneSideTri m n) 3 (fun _ => rfl)]
  · simp [length_flatMap_const (coneSideTri m n) 3 (fun _ => rfl),
      length_flatMap_const (capTri m n 0) 3 (fun _ => rfl)]
    omega

/-! ### The cylinder's loops in closed form -/

theorem cylinderSide_fold (m : CMath α) (n k : Nat) :
    (List.range k).foldl (cylinderSideStep m n) ⟨m.cos 0, m.sin 0, []⟩
      = ⟨m.cos (ringAngle m n k), m.sin (ringAngle m n k),
          (List.range k).flatMap (cylinderSideQuad m n)⟩ := by
  induction k with
  | zero => simp [ringAngle_zero]
  | succ k ih =>
    rw [List.range_succ, List.foldl_append, ih]
    simp [cylinderSideStep, cylinderSideQuad, ringPoint, ringAngle]

theorem cylinderBottom_fold (m : CMath α) (n : Nat) (l : List Nat)
    (init : List (Vec3f α)) :
    l.foldl (cylinderBottomStep m n ⟨0, 0, 0⟩) init = init ++ l.flatMap (capTri m n 0) := by
  have hf : cylinderBottomStep m n (⟨0, 0, 0⟩ : Vec3f α)
      = fun acc i => acc ++ capTri m n 0 i := by
    funext acc i
    simp [cylinderBottomStep, capTri, ringPoint, ringAngle]
  rw [hf]
  exact foldl_append_chunks (capTri m n 0) l init

theorem cylinderTop_fold (m : CMath α) (n : Nat) (l : List Nat) (init : List (Vec3f α)) :
    l.foldl (cylinderTopStep m n ⟨1, 0, 0⟩) init = init ++ l.flatMap (topCapTri m n) := by
  have hf : cylinderTopStep m n (⟨1, 0, 0⟩ : Vec3f α)
      = fun acc i => acc ++ topCapTri m n i := by
    funext acc i
    simp [cylinderTopStep, topCapTri, ringPoint, ringAngle]
  rw [hf]
  exact foldl_append_chunks (topCapTri m n) l init

theorem cylinderLocal_eq (m : CMath α) (aCapped : Bool) (n : Nat) :
    cylinderLocal m aCapped n
      = (List.range n).flatMap (cylinderSideQuad m n)
          ++ (if aCapped then
                (List.range n).flatMap (capTri m n 0) ++ (List.range n).flatMap (topCapTri m n)
              else []) := by
  cases aCapped <;>
    simp [cylinderLocal, cylinderSide_fold, cylinderBottom_fold, cylinderTop_fold]

theorem cylinderLocal_length (m : CMath α) (aCapped : Bool) (n : Nat) :
    (cylinderLocal m aCapped n).length = if aCapped then 12 * n else 6 * n := by
  rw [cylinderLocal_eq]
  cases aCapped
  · simp [length_flatMap_const (cylinderSideQuad m n) 6 (fun _ => rfl)]
  · simp [length_flatMap_const (cylinderSideQuad m n) 6 (fun _ => rfl),
      length_flatMap_const (capTri m n 0) 3 (fun _ => rfl),
      length_flatMap_const (topCapTri m n) 3 (fun _ => rfl)]
    omega

/-! ### The pre-transform step -/

theorem mulVec_identity (v : Vec4f α) : (kIdentity44f : Mat44f α).mulVec v = v := by
  have h00 : (kIdentity44f : Mat44f α).get 0 0 = 1 := rfl
  have h01 : (kIdentity44f : Mat44f α).get 0 1 = 0 := rfl
  have h02 : (kIdentity44f : Mat44f α).get 0 2 = 0 := rfl
  have h03 : (kIdentity44f : Mat44f α).get 0 3 = 0 := rfl
  have h10 : (kIdentity44f : Mat44f α).get 1 0 = 0 := rfl
  have h11 : (kIdentity44f : Mat44f α).get 1 1 = 1 := rfl
  have h12 : (kIdentity44f : Mat44f α).get 1 2 = 0 := rfl
  have h13 : (kIdentity44f : Mat44f α).get 1 3 = 0 := rfl
  have h20 : (kIdentity44f : Mat44f α).get 2 0 = 0 := rfl
  have h21 : (kIdentity44f : Mat44f α).get 2 1 = 0 := rfl
  have h22 : (kIdentity44f : Mat44f α).get 2 2 = 1 := rfl
  have h23 : (kIdentity44f : Mat44f α).get 2 3 = 0 := rfl
  have h30 : (kIdentity44f : Mat44f α).get 3 0 = 0 := rfl
  have h31 : (kIdentity44f : Mat44f α).get 3 1 = 0 := rfl
  have h32 : (kIdentity44f : Mat44f α).get 3 2 = 0 := rfl
  have h33 : (kIdentity44f : Mat44f α).get 3 3 = 1 := rfl
  simp [Mat44f.mulVec, h00, h01, h02, h03, h10, h11, h12, h13, h20, h21, h22, h23,
    h30, h31, h32, h33]

theorem preTransformPoint_identity (p : Vec3f α) :
    preTransformPoint kIdentity44f p = p := by
  simp [preTransformPoint, mulVec_identity, Vec4f.divAssign]

theorem preTransformPoint_translation (t p : Vec3f α) :
    preTransformPoint (make_translation t) p = ⟨p.x + t.x, p.y + t.y, p.z + t.z⟩ := by
  have h00 : (make_translation t).get 0 0 = 1 := rfl
  have h01 : (make_translation t).get 0 1 = 0 := rfl
  have h02 : (make_translation t).get 0 2 = 0 := rfl
  have h03 : (make_translation t).get 0 3 = t.x := rfl
  have h10 : (make_translation t).get 1 0 = 0 := rfl
  have h11 : (make_translation t).get 1 1 = 1 := rfl
  have h12 : (make_translation t).get 1 2 = 0 := rfl
  have h13 : (make_translation t).get 1 3 = t.y := rfl
  have h20 : (make_translation t).get 2 0 = 0 := rfl
  have h21 : (make_translation t).get 2 1 = 0 := rfl
  have h22 : (make_translation t).get 2 2 = 1 := rfl
  have h23 : (make_translation t).get 2 3 = t.z := rfl
  have h30 : (make_translation t).get 3 0 = 0 := rfl
  have h31 : (make_translation t).get 3 1 = 0 := rfl
  have h32 : (make_translation t).get 3 2 = 0 := rfl
  have h33 : (make_translation t).get 3 3 = 1 := rfl
  simp [preTransformPoint, Mat44f.mulVec, Vec4f.divAssign, h00, h01, h02, h03, h10, h11,
    h12, h13, h20, h21, h22, h23, h30, h31, h32, h33]

/-! ### The box in closed form -/

theorem make_box_positions_eq (c : Bool) (n : Nat) (col : Vec3f α) (M : Mat44f α) :
    (make_box c n col M).positions
      = boxIndices.map (fun idx => preTransformPoint M (vertexAt boxVertices idx)) := by
  have hv : ∀ idx ∈ boxIndices,
      vertexAt (boxVertices.map (preTransformPoint M)) idx
        = preTransformPoint M (vertexAt boxVertices idx) := by
    intro idx hidx
    have hlt : idx < 8 := by
      revert idx
      decide
    interval_cases idx <;> rfl
  have hfold := foldl_append_chunks
    (fun idx => [vertexAt (boxVertices.map (preTransformPoint M)) idx]) boxIndices []
  simp only [make_box]
  rw [hfold, List.nil_append, flatMap_singleton_eq_map]
  exact List.map_congr_left hv

end Helpers

/-! ### Concatenation and colors -/

theorem concatenate_positions {α : Type} (A B : SimpleMeshData α) :
    (concatenate A B).positions = A.positions ++ B.positions := by
  simp [concatenate, vectorInsert_end]

theorem concatenate_colors {α : Type} (A B : SimpleMeshData α) :
    (concatenate A B).colors = A.colors ++ B.colors := by
  simp [concatenate, vectorInsert_end]

theorem make_box_colors {α : Type} [Field α] (c : Bool) (n : Nat) (col : Vec3f α)
    (M : Mat44f α) :
    (make_box c n col M).colors
      = List.replicate (make_box c n col M).positions.length col := by
  simp only [make_box]

theorem make_cone_colors {α : Type} [Field α] (m : CMath α) (c : Bool) (n : Nat)
    (col : Vec3f α) (M : Mat44f α) :
    (make_cone m c n col M).colors
      = List.replicate (make_cone m c n col M).positions.length col :=
  rfl

theorem make_cylinder_colors {α : Type} [Field α] (m : CMath α) (c : Bool) (n : Nat)
    (col : Vec3f α) (M : Mat44f α) :
    (make_cylinder m c n col M).colors
      = List.replicate (make_cylinder m c n col M).positions.length col :=
  rfl

/-! ### Checked passes -/

theorem foldlM_checkedPass {α : Type} [Field α] [DecidableEq α] {σ : Type} (n : Nat)
    (hn : (n : α) ≠ 0) (step : σ → Nat → σ) (l : List Nat) (st : σ) :
    l.foldlM (checkedPass α n step) st = some (l.foldl step st) := by
  induction l generalizing st with
  | nil => rfl
  | cons i l ih =>
    rw [List.foldlM_cons, List.foldl_cons]
    simp only [checkedPass, if_neg hn]
    exact ih (step st i)

theorem make_cone_checked_eq {α : Type} [Field α] [DecidableEq α] (m : CMath α)
    (c : Bool) (n : Nat) (hn : (n : α) ≠ 0) (col : Vec3f α) (M : Mat44f α) :
    make_cone_checked m c n col M = some (make_cone m c n col M) := by
  cases c <;>
    simp [make_cone_checked, coneLocalChecked, make_cone, coneLocal,
      foldlM_checkedPass n hn]

theorem make_cylinder_checked_eq {α : Type} [Field α] [DecidableEq α] (m : CMath α)
    (c : Bool) (n : Nat) (hn : (n : α) ≠ 0) (col : Vec3f α) (M : Mat44f α) :
    make_cylinder_checked m c n col M = some (make_cylinder m c n col M) := by
  cases c <;>
    simp [make_cylinder_checked, cylinderLocalChecked, make_cylinder, cylinderLocal,
      foldlM_checkedPass n hn]

/-! ### The matrix product entry by entry -/

theorem mul_get {α : Type} [Field α] (A B : Mat44f α) (i j : Fin 4) :
    (A.mul B).get i j
      = 0 + A.get i 0 * B.get 0 j + A.get i 1 * B.get 1 j + A.get i 2 * B.get 2 j
          + A.get i 3 * B.get 3 j := by
  fin_cases i <;> fin_cases j <;> rfl

theorem Mat44f.ext_get {α : Type} {M N : Mat44f α}
    (h : ∀ i j, M.get i j = N.get i j) : M = N := by
  cases M with
  | mk v =>
    cases N with
    | mk w =>
      congr
      funext idx
      have hdm : idx.val / 4 * 4 + idx.val % 4 = idx.val := Nat.div_add_mod' _ _
      have hij := h ⟨idx.val / 4, by omega⟩ ⟨idx.val % 4, by omega⟩
      simpa [Mat44f.get, hdm] using hij

/-! ### Where the cylinder's triangles sit in the position list -/

theorem cylinder_side_position {α : Type} [Field α] (m : CMath α) (c : Bool) (n i j : Nat)
    (hi : i < n) (hj : j < 6) (col : Vec3f α) (M : Mat44f α) :
    (make_cylinder m c n col M).positions[6 * i + j]?
      = ((cylinderSideQuad m n i)[j]?).map (preTransformPoint M) := by
  have hlen : ((List.range n).flatMap (cylinderSideQuad m n)).length = 6 * n := by
    rw [length_flatMap_const (cylinderSideQuad m n) 6 (fun _ => rfl), List.length_range]
  simp only [make_cylinder, List.getElem?_map]
  rw [cylinderLocal_eq, List.getElem?_append_left (by rw [hlen]; omega),
    getElem?_flatMap_range (cylinderSideQuad m n) 6 (fun _ => rfl) n i j hi hj]

theorem cylinder_bottom_position {α : Type} [Field α] (m : CMath α) (n i j : Nat)
    (hi : i < n) (hj : j < 3) (col : Vec3f α) (M : Mat44f α) :
    (make_cylinder m true n col M).positions[6 * n + 3 * i + j]?
      = ((capTri m n 0 i)[j]?).map (preTransformPoint M) := by
  have hlen : ((List.range n).flatMap (cylinderSideQuad m n)).length = 6 * n := by
    rw [length_flatMap_const (cylinderSideQuad m n) 6 (fun _ => rfl), List.length_range]
  have hlen2 : ((List.range n).flatMap (capTri m n (0 : α))).length = 3 * n := by
    rw [length_flatMap_const (capTri m n 0) 3 (fun _ => rfl), List.length_range]
  simp only [make_cylinder, List.getElem?_map]
  rw [cylinderLocal_eq, if_pos rfl, List.getElem?_append_right (by rw [hlen]; omega), hlen,
    List.getElem?_append_left (by rw [hlen2]; omega)]
  have hidx : 6 * n + 3 * i + j - 6 * n = 3 * i + j := by omega
  rw [hidx, getElem?_flatMap_range (capTri m n 0) 3 (fun _ => rfl) n i j hi hj]

theorem cylinder_top_position {α : Type} [Field α] (m : CMath α) (n i j : Nat)
    (hi : i < n) (hj : j < 3) (col : Vec3f α) (M : Mat44f α) :
    (make_cylinder m true n col M).positions[9 * n + 3 * i + j]?
      = ((topCapTri m n i)[j]?).map (preTransformPoint M) := by
  have hlen : ((List.range n).flatMap (cylinderSideQuad m n)).length = 6 * n := by
    rw [length_flatMap_const (cylinderSideQuad m n) 6 (fun _ => rfl), List.length_range]
  have hlen2 : ((List.range n).flatMap (capTri m n (0 : α))).length = 3 * n := by
    rw [length_flatMap_const (capTri m n 0) 3 (fun _ => rfl), List.length_range]
  simp only [make_cylinder, List.getElem?_map]
  rw [cylinderLocal_eq, if_pos rfl, List.getElem?_append_right (by rw [hlen]; omega), hlen,
    List.getElem?_append_right (by rw [hlen2]; omega), hlen2]
  have hidx : 9 * n + 3 * i + j - 6 * n - 3 * n = 3 * i + j := by omega
  rw [hidx, getElem?_flatMap_range (topCapTri m n) 3 (fun _ => rfl) n i j hi hj]

/-! ### Cap normals with real cosine and sine -/

theorem ringAngle_succ_sub (n i : Nat) :
    ringAngle (⟨Real.cos, Real.sin, Real.pi⟩ : CMath ℝ) n (i + 1)
      - ringAngle (⟨Real.cos, Real.sin, Real.pi⟩ : CMath ℝ) n i = 2 * Real.pi / n := by
  simp only [ringAngle]
  push_cast
  ring

theorem sin_segment_pos (n : Nat) (hn : 3 ≤ n) : 0 < Real.sin (2 * Real.pi / n) := by
  have hn3 : (3 : ℝ) ≤ (n : ℝ) := by exact_mod_cast hn
  have hnpos : (0 : ℝ) < (n : ℝ) := by linarith
  have hpi := Real.pi_pos
  apply Real.sin_pos_of_pos_of_lt_pi
  · positivity
  · rw [div_lt_iff₀ hnpos]
    nlinarith

/-- For every `n ≥ 3` and every segment `i`, with real cosine and sine: the right-hand
normal of the cylinder's bottom-cap triangle `i` is `(sin (2 pi / n), 0, 0)`, which points
in the `+x` direction, and that of its top-cap triangle `i` is `(-sin (2 pi / n), 0, 0)`,
which points in the `-x` direction. -/
theorem cylinder_cap_normals (n i : Nat) (hn : 3 ≤ n) :
    0 < Real.sin (2 * Real.pi / n)
      ∧ triNormal (⟨0, 0, 0⟩ : Vec3f ℝ)
            (ringPoint (⟨Real.cos, Real.sin, Real.pi⟩ : CMath ℝ) n 0 i)
            (ringPoint (⟨Real.cos, Real.sin, Real.pi⟩ : CMath ℝ) n 0 (i + 1))
          = ⟨Real.sin (2 * Real.pi / n), 0, 0⟩
      ∧ triNormal (⟨1, 0, 0⟩ : Vec3f ℝ)
            (ringPoint (⟨Real.cos, Real.sin, Real.pi⟩ : CMath ℝ) n 1 (i + 1))
            (ringPoint (⟨Real.cos, Real.sin, Real.pi⟩ : CMath ℝ) n 1 i)
          = ⟨-Real.sin (2 * Real.pi / n), 0, 0⟩ := by
  have hsub := ringAngle_succ_sub n i
  have hsin := Real.sin_sub (ringAngle (⟨Real.cos, Real.sin, Real.pi⟩ : CMath ℝ) n (i + 1))
    (ringAngle (⟨Real.cos, Real.sin, Real.pi⟩ : CMath ℝ) n i)
  rw [hsub] at hsin
  refine ⟨sin_segment_pos n hn, ?_, ?_⟩
  · simp only [triNormal, Vec3f.sub, Vec3f.cross, ringPoint, hsin]
    congr 1 <;> ring
  · simp only [triNormal, Vec3f.sub, Vec3f.cross, ringPoint, hsin]
    congr 1 <;> ring

/-! ### Where the cone's triangles sit in the position list -/

theorem cone_side_position {α : Type} [Field α] (m : CMath α) (c : Bool) (n i j : Nat)
    (hi : i < n) (hj : j < 3) (col : Vec3f α) (M : Mat44f α) :
    (make_cone m c n col M).positions[3 * i + j]?
      = ((coneSideTri m n i)[j]?).map (preTransformPoint M) := by
  have hlen : ((List.range n).flatMap (coneSideTri m n)).length = 3 * n := by
    rw [length_flatMap_const (coneSideTri m n) 3 (fun _ => rfl), List.length_range]
  simp only [make_cone, List.getElem?_map]
  rw [coneLocal_eq, List.getElem?_append_left (by rw [hlen]; omega),
    getElem?_flatMap_range (coneSideTri m n) 3 (fun _ => rfl) n i j hi hj]

theorem cone_cap_position {α : Type} [Field α] (m : CMath α) (n i j : Nat)
    (hi : i < n) (hj : j < 3) (col : Vec3f α) (M : Mat44f α) :
    (make_cone m true n col M).positions[3 * n + 3 * i + j]?
      = ((capTri m n 0 i)[j]?).map (preTransformPoint M) := by
  have hlen : ((List.range n).flatMap (coneSideTri m n)).length = 3 * n := by
    rw [length_flatMap_const (coneSideTri m n) 3 (fun _ => rfl), List.length_range]
  simp only [make_cone, List.getElem?_map]
  rw [coneLocal_eq, if_pos rfl, List.getElem?_append_right (by rw [hlen]; omega), hlen]
  have hidx : 3 * n + 3 * i + j - 3 * n = 3 * i + j := by omega
  rw [hidx, getElem?_flatMap_range (capTri m n 0) 3 (fun _ => rfl) n i j hi hj]

/-! ### Composition of pre-transforms -/

theorem mulVec_mul {α : Type} [Field α] (A B : Mat44f α) (v : Vec4f α) :
    (A.mul B).mulVec v = A.mulVec (B.mulVec v) := by
  simp only [Mat44f.mulVec, mul_get]
  congr 1 <;> ring

theorem preTransformPoint_mul {α : Type} [Field α] (A B : Mat44f α) (p : Vec3f α)
    (h0 : B.get 3 0 = 0) (h1 : B.get 3 1 = 0) (h2 : B.get 3 2 = 0) (h3 : B.get 3 3 = 1) :
    preTransformPoint (A.mul B) p = preTransformPoint A (preTransformPoint B p) := by
  have hw : (B.mulVec ⟨p.x, p.y, p.z, 1⟩).w = 1 := by
    simp [Mat44f.mulVec, h0, h1, h2, h3]
  have hB : preTransformPoint B p
      = ⟨(B.mulVec ⟨p.x, p.y, p.z, 1⟩).x, (B.mulVec ⟨p.x, p.y, p.z, 1⟩).y,
          (B.mulVec ⟨p.x, p.y, p.z, 1⟩).z⟩ := by
    simp only [preTransformPoint]
    rw [hw]
    simp [Vec4f.divAssign]
  have hv : (⟨(B.mulVec ⟨p.x, p.y, p.z, 1⟩).x, (B.mulVec ⟨p.x, p.y, p.z, 1⟩).y,
      (B.mulVec ⟨p.x, p.y, p.z, 1⟩).z, 1⟩ : Vec4f α) = B.mulVec ⟨p.x, p.y, p.z, 1⟩ := by
    generalize B.mulVec ⟨p.x, p.y, p.z, 1⟩ = q at hw
    obtain ⟨qx, qy, qz, qw⟩ := q
    simp only at hw
    rw [hw]
  rw [hB]
  simp only [preTransformPoint]
  rw [hv, mulVec_mul]

/-! ## Vertex counts -/

/-- C1: for every subdivision count `n` (in particular every `n ≥ 1`), every color and
every pre-transform, `make_cone` returns exactly `3 * n` positions when `capped` is false
and exactly `6 * n` positions when `capped` is true. -/
theorem make_cone_positions_length {α : Type} [Field α] (m : CMath α) (n : Nat)
    (aColor : Vec3f α) (aPreTransform : Mat44f α) :
    (make_cone m false n aColor aPreTransform).positions.length = 3 * n
      ∧ (make_cone m true n aColor aPreTransform).positions.length = 6 * n := by
  constructor <;> simp [make_cone, coneLocal_length]

/-- C2: for every subdivision count `n` (in particular every `n ≥ 1`), every color and
every pre-transform, `make_cylinder` returns exactly `6 * n` positions when `capped` is
false and exactly `12 * n` when `capped` is true; for `n = 1`, capped, these are the 6 side,
3 bottom-cap and 3 top-cap vertices. -/
theorem make_cylinder_positions_length {α : Type} [Field α] (m : CMath α) (n : Nat)
    (aColor : Vec3f α) (aPreTransform : Mat44f α) :
    (make_cylinder m false n aColor aPreTransform).positions.length = 6 * n
      ∧ (make_cylinder m true n aColor aPreTransform).positions.length = 12 * n
      ∧ (make_cylinder m true 1 aColor aPreTransform).positions
          = (cylinderSideQuad m 1 0 ++ capTri m 1 0 0 ++ topCapTri m 1 0).map
              (preTransformPoint aPreTransform)
      ∧ (cylinderSideQuad m 1 0).length = 6 ∧ (capTri m 1 0 0).length = 3
      ∧ (topCapTri m 1 0).length = 3 := by
  refine ⟨?_, ?_, ?_, rfl, rfl, rfl⟩
  · simp [make_cylinder, cylinderLocal_length]
  · simp [make_cylinder, cylinderLocal_length]
  · have hr : List.range 1 = [0] := rfl
    simp [make_cylinder, cylinderLocal_eq, hr]

/-- C3: for every value of `capped`, `subdivisions`, color and pre-transform, `make_box`
returns exactly 36 positions, grouped as 12 triangles of 3 vertices. -/
theorem make_box_positions_length {α : Type} [Field α] (aCapped : Bool) (aSubdivs : Nat)
    (aColor : Vec3f α) (aPreTransform : Mat44f α) :
    (make_box aCapped aSubdivs aColor aPreTransform).positions.length = 36 := by
  rw [make_box_positions_eq]
  rfl

/-! ## The mesh invariant and concatenation -/

/-- C4: the mesh invariant `len(positions) == len(colors)` holds for the output of
`make_box`, `make_cone` and `make_cylinder` on every input, and `concatenate` preserves it:
if both operands satisfy it, so does `concatenate first second`. -/
theorem mesh_wellFormed {α : Type} [Field α] (m : CMath α) :
    (∀ (c : Bool) (n : Nat) (col : Vec3f α) (M : Mat44f α), (make_box c n col M).wellFormed)
      ∧ (∀ (c : Bool) (n : Nat) (col : Vec3f α) (M : Mat44f α),
          (make_cone m c n col M).wellFormed)
      ∧ (∀ (c : Bool) (n : Nat) (col : Vec3f α) (M : Mat44f α),
          (make_cylinder m c n col M).wellFormed)
      ∧ (∀ first second : SimpleMeshData α, first.wellFormed → second.wellFormed →
          (concatenate first second).wellFormed) := by
  refine ⟨?_, ?_, ?_, ?_⟩
  · intro c n col M
    simp [SimpleMeshData.wellFormed, make_box]
  · intro c n col M
    simp [SimpleMeshData.wellFormed, make_cone]
  · intro c n col M
    simp [SimpleMeshData.wellFormed, make_cylinder]
  · intro first second h1 h2
    simp only [SimpleMeshData.wellFormed] at h1 h2 ⊢
    rw [concatenate_positions, concatenate_colors, List.length_append, List.length_append,
      h1, h2]

/-- Witness for C4: a box and a three-segment cone are well formed, and so is their
concatenation. -/
theorem mesh_wellFormed_witness :
    (make_box true 16 (⟨1, 1, 1⟩ : Vec3f ℚ) kIdentity44f).wellFormed
      ∧ (make_cone sampleMath true 3 ⟨1, 0, 0⟩ kIdentity44f).wellFormed
      ∧ (concatenate (make_box true 16 (⟨1, 1, 1⟩ : Vec3f ℚ) kIdentity44f)
          (make_cone sampleMath true 3 ⟨1, 0, 0⟩ kIdentity44f)).wellFormed :=
  ⟨by decide, by decide,
    (mesh_wellFormed sampleMath).2.2.2 _ _ (by decide) (by decide)⟩

/-- C5: for all meshes `A` and `B`, the positions of `concatenate A B` are the positions of
`A` followed by those of `B`, and its colors are the colors of `A` followed by those of
`B`, the order inside each operand being kept. -/
theorem concatenate_eq_append {α : Type} (A B : SimpleMeshData α) :
    (concatenate A B).positions = A.positions ++ B.positions
      ∧ (concatenate A B).colors = A.colors ++ B.colors := by
  exact ⟨concatenate_positions A B, concatenate_colors A B⟩

/-- Instance of C5 at `A` a box and `B` a cone with three subdivisions. -/
theorem concatenate_box_cone :
    (concatenate (make_box true 16 (⟨1, 1, 1⟩ : Vec3f ℚ) kIdentity44f)
        (make_cone sampleMath false 3 ⟨1, 0, 0⟩ kIdentity44f)).positions
      = (make_box true 16 (⟨1, 1, 1⟩ : Vec3f ℚ) kIdentity44f).positions
          ++ (make_cone sampleMath false 3 ⟨1, 0, 0⟩ kIdentity44f).positions :=
  (concatenate_eq_append _ _).1

/-- C6: `concatenate` is associative: for arbitrary meshes `A`, `B`, `C` the two
bracketings have identical position sequences and identical color sequences. -/
theorem concatenate_assoc {α : Type} (A B C : SimpleMeshData α) :
    (concatenate (concatenate A B) C).positions = (concatenate A (concatenate B C)).positions
      ∧ (concatenate (concatenate A B) C).colors
          = (concatenate A (concatenate B C)).colors := by
  simp only [concatenate_positions, concatenate_colors, List.append_assoc, and_self]

/-! ## Pre-transforms -/

/-- C7: with `kIdentity44f` as pre-transform the homogeneous transform step returns every
local vertex unchanged, so for every `capped`, `subdivisions` and color the positions of
`make_box`, `make_cone` and `make_cylinder` are their local-space vertex lists; box
position `k` is `vertices[indices[k]]`. -/
theorem identity_preTransform_positions {α : Type} [Field α] (m : CMath α) (aCapped : Bool)
    (aSubdivs : Nat) (aColor : Vec3f α) :
    (∀ p : Vec3f α, preTransformPoint kIdentity44f p = p)
      ∧ (make_box aCapped aSubdivs aColor kIdentity44f).positions
          = boxIndices.map (vertexAt boxVertices)
      ∧ (make_cone m aCapped aSubdivs aColor kIdentity44f).positions
          = coneLocal m aCapped aSubdivs
      ∧ (make_cylinder m aCapped aSubdivs aColor kIdentity44f).positions
          = cylinderLocal m aCapped aSubdivs := by
  have hid : preTransformPoint (kIdentity44f : Mat44f α) = id := by
    funext p
    exact preTransformPoint_identity p
  refine ⟨preTransformPoint_identity, ?_, ?_, ?_⟩
  · rw [make_box_positions_eq]
    simp [preTransformPoint_identity]
  · simp [make_cone, hid]
  · simp [make_cylinder, hid]

/-- C8: for every `n ≥ 1` and every color, the positions `3 * i + 2` (`i < n`) of
`make_cone` with `capped = false` (and with `capped = true` as well) all hold the
homogeneous transform of the apex `(1,0,0)` by the pre-transform; with the identity
pre-transform they hold the apex `(1,0,0)` itself (indices 2, 5, 8, 11 for `n = 4`). -/
theorem make_cone_apex {α : Type} [Field α] (m : CMath α) (aCapped : Bool) (n i : Nat)
    (hi : i < n) (aColor : Vec3f α) (aPreTransform : Mat44f α) :
    (make_cone m aCapped n aColor aPreTransform).positions[3 * i + 2]?
        = some (preTransformPoint aPreTransform ⟨1, 0, 0⟩)
      ∧ (make_cone m aCapped n aColor kIdentity44f).positions[3 * i + 2]?
        = some ⟨1, 0, 0⟩ := by
  have hside : ((List.range n).flatMap (coneSideTri m n))[3 * i + 2]?
      = some (⟨1, 0, 0⟩ : Vec3f α) := by
    rw [getElem?_flatMap_range (coneSideTri m n) 3 (fun _ => rfl) n i 2 hi (by omega)]
    rfl
  have hlen : 3 * i + 2 < ((List.range n).flatMap (coneSideTri m n)).length := by
    rw [length_flatMap_const (coneSideTri m n) 3 (fun _ => rfl), List.length_range]
    omega
  have hloc : (coneLocal m aCapped n)[3 * i + 2]? = some (⟨1, 0, 0⟩ : Vec3f α) := by
    rw [coneLocal_eq, List.getElem?_append_left hlen, hside]
  constructor
  · simp [make_cone, hloc]
  · simp [make_cone, hloc, preTransformPoint_identity]

/-- Witness for C8: the last apex slot, index 11, of the four-segment uncapped cone. -/
theorem make_cone_apex_witness :
    3 < 4 ∧ (make_cone sampleMath false 4 ⟨1, 0, 0⟩ kIdentity44f).positions[11]?
      = some ⟨1, 0, 0⟩ :=
  ⟨by decide, (make_cone_apex sampleMath false 4 3 (by decide) ⟨1, 0, 0⟩ kIdentity44f).2⟩

/-- C9: for each of `make_box`, `make_cone` and `make_cylinder` and every input, every
entry of the returned color sequence equals the color argument. -/
theorem colors_uniform {α : Type} [Field α] (m : CMath α) (aCapped : Bool) (aSubdivs : Nat)
    (aColor : Vec3f α) (aPreTransform : Mat44f α) :
    (∀ c ∈ (make_box aCapped aSubdivs aColor aPreTransform).colors, c = aColor)
      ∧ (∀ c ∈ (make_cone m aCapped aSubdivs aColor aPreTransform).colors, c = aColor)
      ∧ (∀ c ∈ (make_cylinder m aCapped aSubdivs aColor aPreTransform).colors,
          c = aColor) := by
  refine ⟨?_, ?_, ?_⟩ <;> intro c hc
  · rw [make_box_colors] at hc
    exact List.eq_of_mem_replicate hc
  · rw [make_cone_colors] at hc
    exact List.eq_of_mem_replicate hc
  · rw [make_cylinder_colors] at hc
    exact List.eq_of_mem_replicate hc

/-- Witness for C9: the color stored at index 7 of a red four-segment cone is an entry of
its color sequence, and it is red. -/
theorem colors_uniform_witness :
    (make_cone sampleMath false 4 ⟨1, 0, 0⟩ kIdentity44f).colors.getD 7 ⟨0, 0, 0⟩
        ∈ (make_cone sampleMath false 4 ⟨1, 0, 0⟩ kIdentity44f).colors
      ∧ (make_cone sampleMath false 4 ⟨1, 0, 0⟩ kIdentity44f).colors.getD 7 ⟨0, 0, 0⟩
        = (⟨1, 0, 0⟩ : Vec3f ℚ) :=
  ⟨by decide, (colors_uniform sampleMath false 4 ⟨1, 0, 0⟩ kIdentity44f).2.1 _ (by decide)⟩

/-- C10: for every translation vector `t`, `make_box` with pre-transform
`make_translation t` places each output vertex at its local corner plus `t`; with
`t = (2,0,0)` output index 0, whose local corner is `(-0.5,-0.5,0.5)`, lands at
`(1.5,-0.5,0.5)`. -/
theorem make_box_translation {α : Type} [LinearOrderedField α] (aCapped : Bool)
    (aSubdivs : Nat) (aColor t : Vec3f α) :
    (make_box aCapped aSubdivs aColor (make_translation t)).positions
        = boxIndices.map (fun idx =>
            (⟨(vertexAt boxVertices idx).x + t.x, (vertexAt boxVertices idx).y + t.y,
              (vertexAt boxVertices idx).z + t.z⟩ : Vec3f α))
      ∧ vertexAt (boxVertices : List (Vec3f α)) 0 = ⟨-0.5, -0.5, 0.5⟩
      ∧ boxIndices[0]? = some 0
      ∧ (make_box aCapped aSubdivs aColor (make_translation ⟨2, 0, 0⟩)).positions[0]?
          = some ⟨1.5, -0.5, 0.5⟩ := by
  refine ⟨?_, rfl, rfl, ?_⟩
  · rw [make_box_positions_eq]
    simp [preTransformPoint_translation]
  · rw [make_box_positions_eq]
    simp [preTransformPoint_translation, boxIndices, boxVertices, vertexAt]
    norm_num

/-! ## Zero subdivisions -/

/-- C11: with `subdivisions = 0`, `make_cone` and `make_cylinder` (capped or not, any color
and pre-transform) produce zero triangles: positions and colors are both empty. No division
by `subdivisions` is evaluated: every pass of a loop that divides by it would fail in the
checked generators, and the checked generators succeed with the empty mesh. -/
theorem zero_subdivisions_empty {α : Type} [Field α] [DecidableEq α] (m : CMath α)
    (aCapped : Bool) (aColor : Vec3f α) (aPreTransform : Mat44f α) :
    (make_cone m aCapped 0 aColor aPreTransform).positions = []
      ∧ (make_cone m aCapped 0 aColor aPreTransform).colors = []
      ∧ (make_cylinder m aCapped 0 aColor aPreTransform).positions = []
      ∧ (make_cylinder m aCapped 0 aColor aPreTransform).colors = []
      ∧ (∀ (σ : Type) (step : σ → Nat → σ) (st : σ) (i : Nat),
          checkedPass α 0 step st i = none)
      ∧ make_cone_checked m aCapped 0 aColor aPreTransform = some ⟨[], []⟩
      ∧ make_cylinder_checked m aCapped 0 aColor aPreTransform = some ⟨[], []⟩ := by
  refine ⟨?_, ?_, ?_, ?_, ?_, ?_, ?_⟩
  · cases aCapped <;> rfl
  · cases aCapped <;> rfl
  · cases aCapped <;> rfl
  · cases aCapped <;> rfl
  · intro σ step st i
    simp [checkedPass]
  · cases aCapped <;> rfl
  · cases aCapped <;> rfl

/-! ## Matrix algebra -/

/-- C12: the product `operator*(Mat44f, Mat44f)` computes
`C(i,j) = sum over k of A(i,k) * B(k,j)` on the row-major layout and is associative,
`(A*B)*C = A*(B*C)`, for all matrices over a field (exact scalars). -/
theorem mat_mul_assoc {α : Type} [Field α] :
    (∀ (A B : Mat44f α) (i j : Fin 4),
        (A.mul B).get i j = ∑ k : Fin 4, A.get i k * B.get k j)
      ∧ (∀ (A B : Mat44f α) (i j : Fin 4),
        (A.mul B).v ⟨i.val * 4 + j.val, by omega⟩ = ∑ k : Fin 4, A.get i k * B.get k j)
      ∧ ∀ A B C : Mat44f α, (A.mul B).mul C = A.mul (B.mul C) := by
  have hsum : ∀ (A B : Mat44f α) (i j : Fin 4),
      (A.mul B).get i j = ∑ k : Fin 4, A.get i k * B.get k j := by
    intro A B i j
    rw [mul_get, Fin.sum_univ_four]
    ring
  refine ⟨hsum, hsum, ?_⟩
  intro A B C
  apply Mat44f.ext_get
  intro i j
  simp only [mul_get]
  ring

/-- C13: for every matrix `M` whose last row is `(0,0,0,1)` and every local position `p`,
`M * (p.x, p.y, p.z, 1)` has `w = 1`, the division by `w` changes nothing, and the emitted
position is the first three components of `M * (p, 1)`. -/
theorem affine_preTransform {α : Type} [Field α] (M : Mat44f α) (p : Vec3f α)
    (h0 : M.get 3 0 = 0) (h1 : M.get 3 1 = 0) (h2 : M.get 3 2 = 0) (h3 : M.get 3 3 = 1) :
    (M.mulVec ⟨p.x, p.y, p.z, 1⟩).w = 1
      ∧ (M.mulVec ⟨p.x, p.y, p.z, 1⟩).divAssign (M.mulVec ⟨p.x, p.y, p.z, 1⟩).w
          = M.mulVec ⟨p.x, p.y, p.z, 1⟩
      ∧ preTransformPoint M p
          = ⟨(M.mulVec ⟨p.x, p.y, p.z, 1⟩).x, (M.mulVec ⟨p.x, p.y, p.z, 1⟩).y,
              (M.mulVec ⟨p.x, p.y, p.z, 1⟩).z⟩ := by
  have hw : (M.mulVec ⟨p.x, p.y, p.z, 1⟩).w = 1 := by
    simp [Mat44f.mulVec, h0, h1, h2, h3]
  refine ⟨hw, ?_, ?_⟩
  · rw [hw]
    simp [Vec4f.divAssign]
  · simp only [preTransformPoint]
    rw [hw]
    simp [Vec4f.divAssign]

/-- Witness for C13: the translation by `(2,0,0)` has last row `(0,0,0,1)`; applied to the
box corner `(-1/2,-1/2,1/2)` it gives `w = 1`. -/
theorem affine_preTransform_witness :
    (make_translation (⟨2, 0, 0⟩ : Vec3f ℚ)).get 3 0 = 0
      ∧ (make_translation (⟨2, 0, 0⟩ : Vec3f ℚ)).get 3 3 = 1
      ∧ ((make_translation (⟨2, 0, 0⟩ : Vec3f ℚ)).mulVec
          ⟨(⟨-1/2, -1/2, 1/2⟩ : Vec3f ℚ).x, (⟨-1/2, -1/2, 1/2⟩ : Vec3f ℚ).y,
            (⟨-1/2, -1/2, 1/2⟩ : Vec3f ℚ).z, 1⟩).w = 1 :=
  ⟨rfl, rfl,
    (affine_preTransform (make_translation (⟨2, 0, 0⟩ : Vec3f ℚ)) ⟨-1/2, -1/2, 1/2⟩
      rfl rfl rfl rfl).1⟩

/-! ## Orientation of the generated triangles -/

/-- C14, what the code does: with the identity pre-transform, the quantity
`((v1 - v0) x (v2 - v0)) . v0` of the 12 triangles of `make_box` is `+1/2` for the front,
right and top faces and `-1/2` for the back, left and bottom faces, so the 12 triangles are
not all wound the same way as seen from outside. -/
theorem make_box_winding_mixed :
    perTriangle outwardness (make_box true 16 (⟨1, 1, 1⟩ : Vec3f ℚ) kIdentity44f).positions
      = [1/2, 1/2, -1/2, -1/2, -1/2, -1/2, 1/2, 1/2, 1/2, 1/2, -1/2, -1/2] := by
  rw [make_box_positions_eq]
  simp only [preTransformPoint_identity, boxIndices, boxVertices, vertexAt, List.map,
    List.getD_cons_zero, List.getD_cons_succ, perTriangle, outwardness, triNormal,
    Vec3f.sub, Vec3f.cross, Vec3f.dot]
  norm_num

/-- C16: for every `n ≥ 1` and every `i < n`, in `make_cylinder` with `capped = true` and
the identity pre-transform, bottom-cap triangle `i` sits at positions `6n+3i .. 6n+3i+2`
and is (center, rim point `i`, rim point `i+1`) at `x = 0`; top-cap triangle `i` sits at
positions `9n+3i .. 9n+3i+2` and is the bottom-cap triangle shifted by `(1,0,0)` with its
two rim points in reversed order. -/
theorem top_cap_mirrors_bottom_cap {α : Type} [Field α] (m : CMath α) (n i : Nat)
    (hi : i < n) (aColor : Vec3f α) :
    (make_cylinder m true n aColor kIdentity44f).positions[6 * n + 3 * i]?
        = some ⟨0, 0, 0⟩
      ∧ (make_cylinder m true n aColor kIdentity44f).positions[6 * n + 3 * i + 1]?
        = some (ringPoint m n 0 i)
      ∧ (make_cylinder m true n aColor kIdentity44f).positions[6 * n + 3 * i + 2]?
        = some (ringPoint m n 0 (i + 1))
      ∧ (make_cylinder m true n aColor kIdentity44f).positions[9 * n + 3 * i]?
        = some (Vec3f.add ⟨0, 0, 0⟩ ⟨1, 0, 0⟩)
      ∧ (make_cylinder m true n aColor kIdentity44f).positions[9 * n + 3 * i + 1]?
        = some ((ringPoint m n 0 (i + 1)).add ⟨1, 0, 0⟩)
      ∧ (make_cylinder m true n aColor kIdentity44f).positions[9 * n + 3 * i + 2]?
        = some ((ringPoint m n 0 i).add ⟨1, 0, 0⟩) := by
  have hb := fun j hj => cylinder_bottom_position m n i j hi hj aColor kIdentity44f
  have ht := fun j hj => cylinder_top_position m n i j hi hj aColor kIdentity44f
  refine ⟨?_, ?_, ?_, ?_, ?_, ?_⟩
  · rw [← Nat.add_zero (6 * n + 3 * i), hb 0 (by omega)]
    simp [capTri, preTransformPoint_identity]
  · rw [hb 1 (by omega)]
    simp [capTri, preTransformPoint_identity]
  · rw [hb 2 (by omega)]
    simp [capTri, preTransformPoint_identity]
  · rw [← Nat.add_zero (9 * n + 3 * i), ht 0 (by omega)]
    simp [topCapTri, preTransformPoint_identity, Vec3f.add]
  · rw [ht 1 (by omega)]
    simp [topCapTri, preTransformPoint_identity, Vec3f.add, ringPoint]
  · rw [ht 2 (by omega)]
    simp [topCapTri, preTransformPoint_identity, Vec3f.add, ringPoint]

/-- Witness for C16: the one-segment capped cylinder; its top-cap center, position 9, is
the bottom-cap center shifted by `(1,0,0)`. -/
theorem top_cap_mirrors_bottom_cap_witness :
    0 < 1 ∧ (make_cylinder sampleMath true 1 ⟨1, 0, 0⟩ kIdentity44f).positions[9]?
      = some (Vec3f.add ⟨0, 0, 0⟩ ⟨1, 0, 0⟩) :=
  ⟨by decide,
    (top_cap_mirrors_bottom_cap sampleMath 1 0 (by decide) ⟨1, 0, 0⟩).2.2.2.1⟩

/-- C15, what the code does at `n = 4` (real cosine and sine, identity pre-transform,
`capped = true`): bottom-cap triangle 0 is positions 24..26 and its right-hand normal is
`(1,0,0)`, pointing in the `+x` direction, into the cylinder; top-cap triangle 0 is
positions 36..38 and its right-hand normal is `(-1,0,0)`, pointing in the `-x` direction,
into the cylinder; side triangle 0 is positions 0..2 and its right-hand normal `(0,1,1)`
points away from the x axis. -/
theorem make_cylinder_caps_face_inward :
    (make_cylinder (⟨Real.cos, Real.sin, Real.pi⟩ : CMath ℝ) true 4 ⟨1, 1, 1⟩
        kIdentity44f).positions[24]? = some ⟨0, 0, 0⟩
      ∧ (make_cylinder (⟨Real.cos, Real.sin, Real.pi⟩ : CMath ℝ) true 4 ⟨1, 1, 1⟩
        kIdentity44f).positions[25]? = some ⟨0, 1, 0⟩
      ∧ (make_cylinder (⟨Real.cos, Real.sin, Real.pi⟩ : CMath ℝ) true 4 ⟨1, 1, 1⟩
        kIdentity44f).positions[26]? = some ⟨0, 0, 1⟩
      ∧ triNormal (⟨0, 0, 0⟩ : Vec3f ℝ) ⟨0, 1, 0⟩ ⟨0, 0, 1⟩ = ⟨1, 0, 0⟩
      ∧ (make_cylinder (⟨Real.cos, Real.sin, Real.pi⟩ : CMath ℝ) true 4 ⟨1, 1, 1⟩
        kIdentity44f).positions[36]? = some ⟨1, 0, 0⟩
      ∧ (make_cylinder (⟨Real.cos, Real.sin, Real.pi⟩ : CMath ℝ) true 4 ⟨1, 1, 1⟩
        kIdentity44f).positions[37]? = some ⟨1, 0, 1⟩
      ∧ (make_cylinder (⟨Real.cos, Real.sin, Real.pi⟩ : CMath ℝ) true 4 ⟨1, 1, 1⟩
        kIdentity44f).positions[38]? = some ⟨1, 1, 0⟩
      ∧ triNormal (⟨1, 0, 0⟩ : Vec3f ℝ) ⟨1, 0, 1⟩ ⟨1, 1, 0⟩ = ⟨-1, 0, 0⟩
      ∧ (make_cylinder (⟨Real.cos, Real.sin, Real.pi⟩ : CMath ℝ) true 4 ⟨1, 1, 1⟩
        kIdentity44f).positions[0]? = some ⟨0, 1, 0⟩
      ∧ (make_cylinder (⟨Real.cos, Real.sin, Real.pi⟩ : CMath ℝ) true 4 ⟨1, 1, 1⟩
        kIdentity44f).positions[1]? = some ⟨0, 0, 1⟩
      ∧ (make_cylinder (⟨Real.cos, Real.sin, Real.pi⟩ : CMath ℝ) true 4 ⟨1, 1, 1⟩
        kIdentity44f).positions[2]? = some ⟨1, 1, 0⟩
      ∧ triNormal (⟨0, 1, 0⟩ : Vec3f ℝ) ⟨0, 0, 1⟩ ⟨1, 1, 0⟩ = ⟨0, 1, 1⟩ := by
  have h0 : ringAngle (⟨Real.cos, Real.sin, Real.pi⟩ : CMath ℝ) 4 0 = 0 := ringAngle_zero _ _
  have h1 : ringAngle (⟨Real.cos, Real.sin, Real.pi⟩ : CMath ℝ) 4 (0 + 1) = Real.pi / 2 := by
    simp only [ringAngle]
    push_cast
    ring
  have hb := fun j hj => cylinder_bottom_position (⟨Real.cos, Real.sin, Real.pi⟩ : CMath ℝ)
    4 0 j (by decide) hj ⟨1, 1, 1⟩ kIdentity44f
  have ht := fun j hj => cylinder_top_position (⟨Real.cos, Real.sin, Real.pi⟩ : CMath ℝ)
    4 0 j (by decide) hj ⟨1, 1, 1⟩ kIdentity44f
  have hs := fun j hj => cylinder_side_position (⟨Real.cos, Real.sin, Real.pi⟩ : CMath ℝ)
    true 4 0 j (by decide) hj ⟨1, 1, 1⟩ kIdentity44f
  refine ⟨?_, ?_, ?_, ?_, ?_, ?_, ?_, ?_, ?_, ?_, ?_, ?_⟩
  · rw [show 24 = 6 * 4 + 3 * 0 + 0 from rfl, hb 0 (by decide)]
    simp [capTri, preTransformPoint_identity]
  · rw [show 25 = 6 * 4 + 3 * 0 + 1 from rfl, hb 1 (by decide)]
    simp [capTri, preTransformPoint_identity, ringPoint, h0]
  · rw [show 26 = 6 * 4 + 3 * 0 + 2 from rfl, hb 2 (by decide)]
    simp [capTri, preTransformPoint_identity, ringPoint, h1]
  · simp [triNormal, Vec3f.sub, Vec3f.cross]
  · rw [show 36 = 9 * 4 + 3 * 0 + 0 from rfl, ht 0 (by decide)]
    simp [topCapTri, preTransformPoint_identity]
  · rw [show 37 = 9 * 4 + 3 * 0 + 1 from rfl, ht 1 (by decide)]
    simp [topCapTri, preTransformPoint_identity, ringPoint, h1]
  · rw [show 38 = 9 * 4 + 3 * 0 + 2 from rfl, ht 2 (by decide)]
    simp [topCapTri, preTransformPoint_identity, ringPoint, h0]
  · simp [triNormal, Vec3f.sub, Vec3f.cross]
  · rw [show 0 = 6 * 0 + 0 from rfl, hs 0 (by decide)]
    simp [cylinderSideQuad, preTransformPoint_identity, ringPoint, h0]
  · rw [show 1 = 6 * 0 + 1 from rfl, hs 1 (by decide)]
    simp [cylinderSideQuad, preTransformPoint_identity, ringPoint, h1]
  · rw [show 2 = 6 * 0 + 2 from rfl, hs 2 (by decide)]
    simp [cylinderSideQuad, preTransformPoint_identity, ringPoint, h0]
  · simp [triNormal, Vec3f.sub, Vec3f.cross]

/-! ## Projection and rotations -/

/-- C17: for all `near`, `far` with `0 < near < far` (and every aspect and field of view,
in particular those with `aspect ≠ 0` and `tan (fov / 2) ≠ 0`), the matrix of
`make_perspective_projection` sends `(0,0,-near,1)` to a point with `z / w = -1` after
homogeneous normalization, `(0,0,-far,1)` to one with `z / w = +1`, and any `(x,y,z,1)` to
a point with `w = -z` (exact arithmetic). -/
theorem perspective_depth_range {α : Type} [LinearOrderedField α] (tan : α → α)
    (aFov aAspect aNear aFar : α) (hnear : 0 < aNear) (hfar : aNear < aFar) :
    (((make_perspective_projection tan aFov aAspect aNear aFar).mulVec
          ⟨0, 0, -aNear, 1⟩).divAssign
        ((make_perspective_projection tan aFov aAspect aNear aFar).mulVec
          ⟨0, 0, -aNear, 1⟩).w).z = -1
      ∧ (((make_perspective_projection tan aFov aAspect aNear aFar).mulVec
          ⟨0, 0, -aFar, 1⟩).divAssign
        ((make_perspective_projection tan aFov aAspect aNear aFar).mulVec
          ⟨0, 0, -aFar, 1⟩).w).z = 1
      ∧ ∀ x y z : α,
        ((make_perspective_projection tan aFov aAspect aNear aFar).mulVec ⟨x, y, z, 1⟩).w
          = -z := by
  have hfarpos : 0 < aFar := lt_trans hnear hfar
  have hd : aFar - aNear ≠ 0 := ne_of_gt (sub_pos.mpr hfar)
  have hn0 : aNear ≠ 0 := ne_of_gt hnear
  have hf0 : aFar ≠ 0 := ne_of_gt hfarpos
  have h20 : (make_perspective_projection tan aFov aAspect aNear aFar).get 2 0 = 0 := rfl
  have h21 : (make_perspective_projection tan aFov aAspect aNear aFar).get 2 1 = 0 := rfl
  have h22 : (make_perspective_projection tan aFov aAspect aNear aFar).get 2 2
      = -(aFar + aNear) / (aFar - aNear) := rfl
  have h23 : (make_perspective_projection tan aFov aAspect aNear aFar).get 2 3
      = -(2 * aFar * aNear) / (aFar - aNear) := rfl
  have h30 : (make_perspective_projection tan aFov aAspect aNear aFar).get 3 0 = 0 := rfl
  have h31 : (make_perspective_projection tan aFov aAspect aNear aFar).get 3 1 = 0 := rfl
  have h32 : (make_perspective_projection tan aFov aAspect aNear aFar).get 3 2 = -1 := rfl
  have h33 : (make_perspective_projection tan aFov aAspect aNear aFar).get 3 3 = 0 := rfl
  refine ⟨?_, ?_, ?_⟩
  · simp only [Mat44f.mulVec, Vec4f.divAssign, h20, h21, h22, h23, h30, h31, h32, h33]
    field_simp
    ring
  · simp only [Mat44f.mulVec, Vec4f.divAssign, h20, h21, h22, h23, h30, h31, h32, h33]
    field_simp
    ring
  · intro x y z
    simp only [Mat44f.mulVec, h30, h31, h32, h33]
    ring

/-- Witness for C17: `near = 1`, `far = 3`; the near-plane point has `z / w = -1`. -/
theorem perspective_depth_range_witness :
    (0 : ℚ) < 1 ∧ (1 : ℚ) < 3
      ∧ (((make_perspective_projection (fun _ => (1 : ℚ)) 1 2 1 3).mulVec
            ⟨0, 0, -1, 1⟩).divAssign
          ((make_perspective_projection (fun _ => (1 : ℚ)) 1 2 1 3).mulVec
            ⟨0, 0, -1, 1⟩).w).z = -1 :=
  ⟨by norm_num, by norm_num,
    (perspective_depth_range (fun _ => (1 : ℚ)) 1 2 1 3 (by norm_num) (by norm_num)).1⟩

/-- C18: for every angle `a`, `make_rotation_x`, `make_rotation_y` and `make_rotation_z`
applied to `(x,y,z,1)` give `(x, y cos a - z sin a, y sin a + z cos a, 1)`,
`(x cos a + z sin a, y, -x sin a + z cos a, 1)` and
`(x cos a - y sin a, x sin a + y cos a, z, 1)`; with real cosine and sine a quarter turn
about X takes `+y` to `+z`, about Y takes `+z` to `+x`, and about Z takes `+x` to `+y`. -/
theorem rotations_right_handed :
    (∀ (α : Type) [Field α] (m : CMath α) (a x y z : α),
        (make_rotation_x m a).mulVec ⟨x, y, z, 1⟩
            = ⟨x, y * m.cos a - z * m.sin a, y * m.sin a + z * m.cos a, 1⟩
          ∧ (make_rotation_y m a).mulVec ⟨x, y, z, 1⟩
            = ⟨x * m.cos a + z * m.sin a, y, -x * m.sin a + z * m.cos a, 1⟩
          ∧ (make_rotation_z m a).mulVec ⟨x, y, z, 1⟩
            = ⟨x * m.cos a - y * m.sin a, x * m.sin a + y * m.cos a, z, 1⟩)
      ∧ (make_rotation_x (⟨Real.cos, Real.sin, Real.pi⟩ : CMath ℝ) (Real.pi / 2)).mulVec
          ⟨0, 1, 0, 1⟩ = ⟨0, 0, 1, 1⟩
      ∧ (make_rotation_y (⟨Real.cos, Real.sin, Real.pi⟩ : CMath ℝ) (Real.pi / 2)).mulVec
          ⟨0, 0, 1, 1⟩ = ⟨1, 0, 0, 1⟩
      ∧ (make_rotation_z (⟨Real.cos, Real.sin, Real.pi⟩ : CMath ℝ) (Real.pi / 2)).mulVec
          ⟨1, 0, 0, 1⟩ = ⟨0, 1, 0, 1⟩ := by
  have hgen : ∀ (α : Type) [Field α] (m : CMath α) (a x y z : α),
      (make_rotation_x m a).mulVec ⟨x, y, z, 1⟩
          = ⟨x, y * m.cos a - z * m.sin a, y * m.sin a + z * m.cos a, 1⟩
        ∧ (make_rotation_y m a).mulVec ⟨x, y, z, 1⟩
          = ⟨x * m.cos a + z * m.sin a, y, -x * m.sin a + z * m.cos a, 1⟩
        ∧ (make_rotation_z m a).mulVec ⟨x, y, z, 1⟩
          = ⟨x * m.cos a - y * m.sin a, x * m.sin a + y * m.cos a, z, 1⟩ := by
    intro α _ m a x y z
    have ex : (make_rotation_x m a).mulVec ⟨x, y, z, 1⟩
        = ⟨1 * x + 0 * y + 0 * z + 0 * 1, 0 * x + m.cos a * y + -m.sin a * z + 0 * 1,
            0 * x + m.sin a * y + m.cos a * z + 0 * 1, 0 * x + 0 * y + 0 * z + 1 * 1⟩ := rfl
    have ey : (make_rotation_y m a).mulVec ⟨x, y, z, 1⟩
        = ⟨m.cos a * x + 0 * y + m.sin a * z + 0 * 1, 0 * x + 1 * y + 0 * z + 0 * 1,
            -m.sin a * x + 0 * y + m.cos a * z + 0 * 1, 0 * x + 0 * y + 0 * z + 1 * 1⟩ := rfl
    have ez : (make_rotation_z m a).mulVec ⟨x, y, z, 1⟩
        = ⟨m.cos a * x + -m.sin a * y + 0 * z + 0 * 1, m.sin a * x + m.cos a * y + 0 * z + 0 * 1,
            0 * x + 0 * y + 1 * z + 0 * 1, 0 * x + 0 * y + 0 * z + 1 * 1⟩ := rfl
    refine ⟨?_, ?_, ?_⟩
    · rw [ex]
      congr 1 <;> ring
    · rw [ey]
      congr 1 <;> ring
    · rw [ez]
      congr 1 <;> ring
  refine ⟨hgen, ?_, ?_, ?_⟩
  · rw [(hgen ℝ _ _ _ _ _).1]
    simp
  · rw [(hgen ℝ _ _ _ _ _).2.1]
    simp
  · rw [(hgen ℝ _ _ _ _ _).2.2]
    simp

/-! ## Parameters the box does not read, and whole triangles -/

/-- C19: `make_box` ignores `capped` and `subdivisions`: for all `capped1`, `capped2`,
`n1`, `n2` and every color and pre-transform the two calls return the same positions and
the same colors. -/
theorem make_box_ignores_capped_subdivs {α : Type} [Field α] (capped1 capped2 : Bool)
    (n1 n2 : Nat) (aColor : Vec3f α) (aPreTransform : Mat44f α) :
    (make_box capped1 n1 aColor aPreTransform).positions
        = (make_box capped2 n2 aColor aPreTransform).positions
      ∧ (make_box capped1 n1 aColor aPreTransform).colors
        = (make_box capped2 n2 aColor aPreTransform).colors := by
  constructor <;> simp only [make_box]

/-- C20: every position count is a multiple of 3: `len(positions) % 3 == 0` for the output
of `make_box`, `make_cone` and `make_cylinder` on every input, and for `concatenate A B`
whenever it holds for `A` and for `B`. -/
theorem positions_whole_triangles {α : Type} [Field α] (m : CMath α) :
    (∀ (c : Bool) (n : Nat) (col : Vec3f α) (M : Mat44f α),
        (make_box c n col M).positions.length % 3 = 0)
      ∧ (∀ (c : Bool) (n : Nat) (col : Vec3f α) (M : Mat44f α),
        (make_cone m c n col M).positions.length % 3 = 0)
      ∧ (∀ (c : Bool) (n : Nat) (col : Vec3f α) (M : Mat44f α),
        (make_cylinder m c n col M).positions.length % 3 = 0)
      ∧ (∀ A B : SimpleMeshData α, A.positions.length % 3 = 0 →
          B.positions.length % 3 = 0 → (concatenate A B).positions.length % 3 = 0) := by
  refine ⟨?_, ?_, ?_, ?_⟩
  · intro c n col M
    rw [make_box_positions_eq, List.length_map]
    rfl
  · intro c n col M
    have h : (make_cone m c n col M).positions.length = if c then 6 * n else 3 * n := by
      simp [make_cone, coneLocal_length]
    rw [h]
    split <;> omega
  · intro c n col M
    have h : (make_cylinder m c n col M).positions.length
        = if c then 12 * n else 6 * n := by
      simp [make_cylinder, cylinderLocal_length]
    rw [h]
    split <;> omega
  · intro A B hA hB
    rw [concatenate_positions, List.length_append]
    omega

/-- Witness for C20: a box (36 positions) and a capped three-segment cone (18 positions)
hold whole triangles, and so does their concatenation. -/
theorem positions_whole_triangles_witness :
    (make_box true 16 (⟨1, 1, 1⟩ : Vec3f ℚ) kIdentity44f).positions.length % 3 = 0
      ∧ (make_cone sampleMath true 3 ⟨1, 0, 0⟩ kIdentity44f).positions.length % 3 = 0
      ∧ (concatenate (make_box true 16 (⟨1, 1, 1⟩ : Vec3f ℚ) kIdentity44f)
          (make_cone sampleMath true 3 ⟨1, 0, 0⟩ kIdentity44f)).positions.length % 3 = 0 :=
  ⟨by decide, by decide,
    (positions_whole_triangles sampleMath).2.2.2 _ _ (by decide) (by decide)⟩

/-! ## Shared rim vertices, the closed ring, and composed pre-transforms -/

/-- C21: for every `n ≥ 1`, every `i < n` and every pre-transform, in `make_cone` with
`capped = true` the cap triangle `i` has as first vertex (position `3n+3i`) the transform
of the circle center `(0,0,0)`, and its second and third vertices (positions `3n+3i+1` and
`3n+3i+2`) are equal to the first and second vertices of side triangle `i` (positions `3i`
and `3i+1`): the transforms of rim points `i` and `i+1`. -/
theorem cone_cap_shares_rim {α : Type} [Field α] (m : CMath α) (n i : Nat) (hi : i < n)
    (aColor : Vec3f α) (aPreTransform : Mat44f α) :
    (make_cone m true n aColor aPreTransform).positions[3 * n + 3 * i]?
        = some (preTransformPoint aPreTransform ⟨0, 0, 0⟩)
      ∧ (make_cone m true n aColor aPreTransform).positions[3 * n + 3 * i + 1]?
        = (make_cone m true n aColor aPreTransform).positions[3 * i]?
      ∧ (make_cone m true n aColor aPreTransform).positions[3 * n + 3 * i + 2]?
        = (make_cone m true n aColor aPreTransform).positions[3 * i + 1]?
      ∧ (make_cone m true n aColor aPreTransform).positions[3 * i]?
        = some (preTransformPoint aPreTransform (ringPoint m n 0 i))
      ∧ (make_cone m true n aColor aPreTransform).positions[3 * i + 1]?
        = some (preTransformPoint aPreTransform (ringPoint m n 0 (i + 1))) := by
  have hs := fun j hj => cone_side_position m true n i j hi hj aColor aPreTransform
  have hc := fun j hj => cone_cap_position m n i j hi hj aColor aPreTransform
  have hs0 : (make_cone m true n aColor aPreTransform).positions[3 * i]?
      = some (preTransformPoint aPreTransform (ringPoint m n 0 i)) := by
    rw [← Nat.add_zero (3 * i), hs 0 (by omega)]
    rfl
  have hs1 : (make_cone m true n aColor aPreTransform).positions[3 * i + 1]?
      = some (preTransformPoint aPreTransform (ringPoint m n 0 (i + 1))) := by
    rw [hs 1 (by omega)]
    rfl
  refine ⟨?_, ?_, ?_, hs0, hs1⟩
  · rw [← Nat.add_zero (3 * n + 3 * i), hc 0 (by omega)]
    rfl
  · rw [hs0, hc 1 (by omega)]
    rfl
  · rw [hs1, hc 2 (by omega)]
    rfl

/-- Witness for C21: the capped four-segment cone under the translation by `(2,0,0)`; cap
triangle 1 starts at position 15, whose vertex 16 is the side vertex at position 3. -/
theorem cone_cap_shares_rim_witness :
    1 < 4
      ∧ (make_cone sampleMath true 4 ⟨1, 0, 0⟩ (make_translation ⟨2, 0, 0⟩)).positions[16]?
        = (make_cone sampleMath true 4 ⟨1, 0, 0⟩ (make_translation ⟨2, 0, 0⟩)).positions[3]? :=
  ⟨by decide,
    (cone_cap_shares_rim sampleMath 4 1 (by decide) ⟨1, 0, 0⟩
      (make_translation ⟨2, 0, 0⟩)).2.1⟩

/-- C22: with real cosine and sine, for every `n ≥ 1`, in `make_cone` with the identity
pre-transform the side ring is a closed chain: the second vertex of side triangle `i` is
the first vertex of side triangle `i + 1` whenever `i + 1 < n`, the first vertex of
triangle 0 is `(0,1,0)`, the second vertex of triangle `n - 1` is again `(0,1,0)`, and
every rim vertex `(0,y,z)` of a side triangle satisfies `y^2 + z^2 = 1`. -/
theorem cone_ring_closed (aCapped : Bool) (n : Nat) (hn : 1 ≤ n) (aColor : Vec3f ℝ) :
    (∀ i, i + 1 < n →
        (make_cone (⟨Real.cos, Real.sin, Real.pi⟩ : CMath ℝ) aCapped n aColor
            kIdentity44f).positions[3 * i + 1]?
          = (make_cone (⟨Real.cos, Real.sin, Real.pi⟩ : CMath ℝ) aCapped n aColor
            kIdentity44f).positions[3 * (i + 1)]?
        ∧ ((make_cone (⟨Real.cos, Real.sin, Real.pi⟩ : CMath ℝ) aCapped n aColor
            kIdentity44f).positions[3 * i + 1]?).isSome = true)
      ∧ (make_cone (⟨Real.cos, Real.sin, Real.pi⟩ : CMath ℝ) aCapped n aColor
          kIdentity44f).positions[0]? = some ⟨0, 1, 0⟩
      ∧ (make_cone (⟨Real.cos, Real.sin, Real.pi⟩ : CMath ℝ) aCapped n aColor
          kIdentity44f).positions[3 * (n - 1) + 1]? = some ⟨0, 1, 0⟩
      ∧ (∀ i, i < n → ∃ y z : ℝ,
          (make_cone (⟨Real.cos, Real.sin, Real.pi⟩ : CMath ℝ) aCapped n aColor
              kIdentity44f).positions[3 * i]? = some ⟨0, y, z⟩
            ∧ y ^ 2 + z ^ 2 = 1)
      ∧ (∀ i, i < n → ∃ y z : ℝ,
          (make_cone (⟨Real.cos, Real.sin, Real.pi⟩ : CMath ℝ) aCapped n aColor
              kIdentity44f).positions[3 * i + 1]? = some ⟨0, y, z⟩
            ∧ y ^ 2 + z ^ 2 = 1) := by
  have hs0 : ∀ i, i < n →
      (make_cone (⟨Real.cos, Real.sin, Real.pi⟩ : CMath ℝ) aCapped n aColor
          kIdentity44f).positions[3 * i]?
        = some (ringPoint (⟨Real.cos, Real.sin, Real.pi⟩ : CMath ℝ) n 0 i) := by
    intro i hi
    rw [← Nat.add_zero (3 * i), cone_side_position _ aCapped n i 0 hi (by omega)]
    simp [coneSideTri, preTransformPoint_identity]
  have hs1 : ∀ i, i < n →
      (make_cone (⟨Real.cos, Real.sin, Real.pi⟩ : CMath ℝ) aCapped n aColor
          kIdentity44f).positions[3 * i + 1]?
        = some (ringPoint (⟨Real.cos, Real.sin, Real.pi⟩ : CMath ℝ) n 0 (i + 1)) := by
    intro i hi
    rw [cone_side_position _ aCapped n i 1 hi (by omega)]
    simp [coneSideTri, preTransformPoint_identity]
  have hn0 : (n : ℝ) ≠ 0 := by
    have : (1 : ℝ) ≤ (n : ℝ) := by exact_mod_cast hn
    linarith
  have hlast : ringAngle (⟨Real.cos, Real.sin, Real.pi⟩ : CMath ℝ) n (n - 1 + 1)
      = 2 * Real.pi := by
    have hnn : n - 1 + 1 = n := by omega
    rw [hnn]
    simp only [ringAngle]
    rw [div_self hn0]
    ring
  refine ⟨?_, ?_, ?_, ?_, ?_⟩
  · intro i hi
    rw [hs1 i (by omega), hs0 (i + 1) hi]
    exact ⟨rfl, rfl⟩
  · have h := hs0 0 (by omega)
    rw [Nat.mul_zero] at h
    rw [h]
    simp [ringPoint, ringAngle_zero]
  · rw [hs1 (n - 1) (by omega)]
    simp only [ringPoint, hlast]
    simp
  · intro i hi
    refine ⟨_, _, hs0 i hi, ?_⟩
    exact Real.cos_sq_add_sin_sq _
  · intro i hi
    refine ⟨_, _, hs1 i hi, ?_⟩
    exact Real.cos_sq_add_sin_sq _

/-- Witness for C22: the four-segment uncapped cone starts its ring at `(0,1,0)`. -/
theorem cone_ring_closed_witness :
    1 ≤ 4
      ∧ (make_cone (⟨Real.cos, Real.sin, Real.pi⟩ : CMath ℝ) false 4 ⟨1, 0, 0⟩
          kIdentity44f).positions[0]? = some ⟨0, 1, 0⟩ :=
  ⟨by decide, (cone_ring_closed false 4 (by decide) ⟨1, 0, 0⟩).2.1⟩

/-- C23: pre-transforms compose (exact arithmetic): `(A*B)*v = A*(B*v)` for all matrices,
and for every `B` whose last row is `(0,0,0,1)` (and every `A`, in particular every `A`
with that last row), every `capped`, `n` and color, the positions of `make_cone`,
`make_box` and `make_cylinder` with pre-transform `A*B` are the positions with
pre-transform `B`, each mapped through the homogeneous transform by `A`. -/
theorem preTransform_compose {α : Type} [Field α] (m : CMath α) (A B : Mat44f α)
    (h0 : B.get 3 0 = 0) (h1 : B.get 3 1 = 0) (h2 : B.get 3 2 = 0) (h3 : B.get 3 3 = 1)
    (aCapped : Bool) (n : Nat) (aColor : Vec3f α) :
    (∀ v : Vec4f α, (A.mul B).mulVec v = A.mulVec (B.mulVec v))
      ∧ (make_cone m aCapped n aColor (A.mul B)).positions
          = (make_cone m aCapped n aColor B).positions.map (preTransformPoint A)
      ∧ (make_box aCapped n aColor (A.mul B)).positions
          = (make_box aCapped n aColor B).positions.map (preTransformPoint A)
      ∧ (make_cylinder m aCapped n aColor (A.mul B)).positions
          = (make_cylinder m aCapped n aColor B).positions.map (preTransformPoint A) := by
  have hcomp : preTransformPoint (A.mul B)
      = fun p => preTransformPoint A (preTransformPoint B p) := by
    funext p
    exact preTransformPoint_mul A B p h0 h1 h2 h3
  refine ⟨mulVec_mul A B, ?_, ?_, ?_⟩
  · simp only [make_cone, List.map_map, hcomp]
    rfl
  · rw [make_box_positions_eq, make_box_positions_eq, List.map_map, hcomp]
    rfl
  · simp only [make_cylinder, List.map_map, hcomp]
    rfl

/-- Witness for C23: the pre-transform of the x-arrow's cone in `main.cpp`,
`make_scaling(1, 0.3, 0.3) * make_translation((5,0,0))`; the translation has last row
`(0,0,0,1)`. -/
theorem preTransform_compose_witness :
    (make_translation (⟨5, 0, 0⟩ : Vec3f ℚ)).get 3 3 = 1
      ∧ (make_cone sampleMath true 4 ⟨0, 0, 0⟩
          ((make_scaling 1 0.3 0.3).mul (make_translation ⟨5, 0, 0⟩))).positions
        = (make_cone sampleMath true 4 ⟨0, 0, 0⟩ (make_translation ⟨5, 0, 0⟩)).positions.map
            (preTransformPoint (make_scaling 1 0.3 0.3)) :=
  ⟨rfl,
    (preTransform_compose sampleMath (make_scaling 1 0.3 0.3)
      (make_translation ⟨5, 0, 0⟩) rfl rfl rfl rfl true 4 ⟨0, 0, 0⟩).2.1⟩

end ExG4
